import Mathlib

/-!
Verification development for the `cali-logger` workout logging tool
(`cali-log.go`).

The Go program is shallowly embedded: Go strings are Lean `String`s and
the Go standard-library string helpers used by the program (`strings.Split`
on a one-character separator, `strings.TrimSpace`, `strings.HasPrefix`,
`strings.EqualFold` against the ASCII literal `"date"`, `strconv.Atoi`)
are modelled as executable functions on the underlying character list.
File I/O is modelled by an explicit `FileRead` value (file missing /
unreadable / readable with a list of lines), the Google Sheets fetch by an
explicit list of raw rows (each row a list of cell strings, as produced by
`valueAt`/`fmt.Sprint`), and fallible operations return `Except String`.
A Go `panic` (out-of-range string slice) is modelled by `Option.none` on
the operations that can hit it.
-/

namespace CaliLog

/-- Model of Go `strings.Split s "|"` (single-character separator): split
the character list on the separator, keeping empty pieces. -/
def goSplit (s : String) (sep : Char) : List String :=
  (s.data.splitOn sep).map String.mk

/-- Model of Go `strings.TrimSpace`: drop whitespace from both ends. -/
def goTrim (s : String) : String :=
  String.mk (((s.data.dropWhile Char.isWhitespace).reverse.dropWhile Char.isWhitespace).reverse)

/-- Model of Go `strings.HasPrefix s pre`. -/
def goHasPrefix (s pre : String) : Bool :=
  pre.data.isPrefixOf s.data

/-- Model of Go `strings.ToLower` (ASCII folding; the program only folds
against the ASCII literal `"date"`). -/
def goToLower (s : String) : String :=
  String.mk (s.data.map Char.toLower)

/-- Model of one decimal-digit accumulation pass of Go `strconv.Atoi`. -/
def digitsToNat (acc : Nat) : List Char → Option Nat
  | [] => some acc
  | c :: rest =>
    if '0' ≤ c ∧ c ≤ '9' then digitsToNat (acc * 10 + (c.toNat - '0'.toNat)) rest
    else none

/-- Model of Go `strconv.Atoi`: optional sign followed by at least one
decimal digit; anything else is an error (`none`). -/
def goAtoi (s : String) : Option Int :=
  match s.data with
  | [] => none
  | '-' :: rest => if rest = [] then none else (digitsToNat 0 rest).map (fun n => -(n : Int))
  | '+' :: rest => if rest = [] then none else (digitsToNat 0 rest).map (fun n => (n : Int))
  | l => (digitsToNat 0 l).map (fun n => (n : Int))

/-- Model of the Go string slice `s[:n]`: defined only when `n ≤ len(s)`;
`none` models the runtime panic `slice bounds out of range`. -/
def goSliceTo (s : String) (n : Nat) : Option String :=
  if n ≤ s.length then some (String.mk (s.data.take n)) else none

/-- The first four characters of a date string, the year key used to name
the local year-file (`date[:4]` when it does not panic). -/
def yearKey (date : String) : String :=
  String.mk (date.data.take 4)

/-- Model of the Go pattern `var out []T; for ... { if ok { out = append(out, v) } }`:
a left fold that appends each produced value. -/
def collectLoop (f : α → Option β) (xs : List α) : List β :=
  xs.foldl (fun acc x => match f x with | some b => acc ++ [b] | none => acc) []

/-- Model of the Go pattern `for ... { if p(x) { out = append(out, x) } }`. -/
def filterLoop (p : α → Bool) (xs : List α) : List α :=
  xs.foldl (fun acc x => if p x then acc ++ [x] else acc) []

/-- The `WorkoutEntry` struct of `cali-log.go`. `RowIndex` (Go `int64`,
always a nonnegative row position) is modelled as `Nat`; its Go zero value
is `0`. -/
structure WorkoutEntry where
  Date : String
  Day : String
  Exercise : String
  Level : String
  RepsSets : String
  Goal : String
  Comment : String
  RowIndex : Nat
deriving DecidableEq, Repr, Inhabited

/-- Go `parseLogLine`: split on `'|'`; fewer than 7 parts is not a record;
otherwise the first seven parts become the fields (extra parts, if any,
are ignored) and `RowIndex` keeps its zero value. -/
def parseLogLine (line : String) : Option WorkoutEntry :=
  let parts := goSplit line '|'
  if parts.length < 7 then none
  else some
    { Date := parts.getD 0 ""
      Day := parts.getD 1 ""
      Exercise := parts.getD 2 ""
      Level := parts.getD 3 ""
      RepsSets := parts.getD 4 ""
      Goal := parts.getD 5 ""
      Comment := parts.getD 6 ""
      RowIndex := 0 }

/-- Go `serializeLogEntry`: the seven fields joined by `'|'` with a
trailing newline. -/
def serializeLogEntry (e : WorkoutEntry) : String :=
  e.Date ++ "|" ++ e.Day ++ "|" ++ e.Exercise ++ "|" ++ e.Level ++ "|" ++
    e.RepsSets ++ "|" ++ e.Goal ++ "|" ++ e.Comment ++ "\n"

/-- A string with its final character removed (used to state how the
serialized line relates to the line the scanner-based readers parse). -/
def chopLast (s : String) : String :=
  String.mk s.data.dropLast

/-- Association-list lookup modelling a Go map read `m[k]` (comma-ok
form). The Go maps in the program are package-level literals; they are
embedded as association lists in source declaration order. -/
def tblLookup : List (String × α) → String → Option α
  | [], _ => none
  | (k, v) :: rest, key => if k = key then some v else tblLookup rest key

/-- The goal map `goals` of `cali-log.go`: Exercise -> Level -> Goal. -/
def goals : List (String × List (String × String)) :=
  [ ("Pushups",
      [ ("Wall", "50x3"), ("Incline", "40x3"), ("Kneeling", "30x3"),
        ("Half", "25x2"), ("Full", "20x2"), ("Close", "20x2"),
        ("Uneven", "20x2"), ("Half One-Arm", "20x2"), ("Lever", "20x2"),
        ("One-Arm", "100x1") ]),
    ("Squats",
      [ ("Shoulderstand", "50x3"), ("Jackknife", "40x3"), ("Supported", "30x3"),
        ("Half", "50x2"), ("Full", "30x2"), ("Close", "20x2"),
        ("Uneven", "20x2"), ("Half One-Leg", "20x2"), ("Assisted One-Leg", "20x2"),
        ("One-Leg", "50x2") ]),
    ("Pullups",
      [ ("Vertical", "40x3"), ("Horizontal", "30x3"), ("Jackknife", "20x3"),
        ("Half", "15x2"), ("Full", "10x2"), ("Close", "10x2"),
        ("Uneven", "9x2"), ("Half One-Arm", "8x2"), ("Assisted One-Arm", "7x2"),
        ("One-Arm", "6x2") ]),
    ("Leg Raises",
      [ ("Knee Tuck", "40x3"), ("Knee Raise", "35x3"), ("Bent Leg", "30x3"),
        ("Frog", "25x3"), ("Flat", "20x2"), ("Hanging Knee", "15x2"),
        ("Hanging Bent", "15x2"), ("Partial", "15x2"), ("Hanging", "30x2") ]),
    ("Bridges",
      [ ("Short", "50x3"), ("Straight", "40x3"), ("Angled", "30x3"),
        ("Head", "25x2"), ("Half", "20x2"), ("Full", "15x2"),
        ("Wall Down", "10x2"), ("Wall Up", "8x2"), ("Closing", "6x2"),
        ("Stand-to-Stand", "10-30x2") ]),
    ("Handstand Push-ups",
      [ ("Wall Headstand", "2min"), ("Crow", "1min"), ("Wall", "2min"),
        ("Half", "20x2"), ("Full", "15x2"), ("Close", "12x2"),
        ("Uneven", "10x2"), ("Half One-Arm", "8x2"), ("Lever", "6x2"),
        ("One-Arm", "5x2") ]) ]

/-- Go `resolveGoal`: look the exercise up in the goal map, then the
level; the sentinel `"-"` when either lookup misses. -/
def resolveGoal (exercise level : String) : String :=
  match tblLookup goals exercise with
  | some levels =>
    match tblLookup levels level with
    | some goal => goal
    | none => "-"
  | none => "-"

/-- The tutorial map `tutorials` of `cali-log.go`: Exercise -> Level ->
YouTube link (no entries for "Handstand Push-ups"). -/
def tutorials : List (String × List (String × String)) :=
  [ ("Pushups",
      [ ("Wall", "https://www.youtube.com/watch?v=N5C9NUHZ20U"),
        ("Incline", "https://www.youtube.com/watch?v=Gv8y_prZBZY"),
        ("Kneeling", "https://www.youtube.com/watch?v=NyzxeqY6CR8"),
        ("Half", "https://www.youtube.com/watch?v=bGuUODcwnHA"),
        ("Full", "https://www.youtube.com/watch?v=1QJICN6udbs"),
        ("Close", "https://www.youtube.com/watch?v=3-1vRVuWgBc"),
        ("Uneven", "https://www.youtube.com/watch?v=o1abTRdwpUs"),
        ("Half One-Arm", "https://www.youtube.com/watch?v=63077t3I4Zc"),
        ("Lever", "https://www.youtube.com/watch?v=Hwq5zdb-owA"),
        ("One-Arm", "https://www.youtube.com/watch?v=ReKZry7JQEQ") ]),
    ("Squats",
      [ ("Shoulderstand", "https://www.youtube.com/watch?v=a-JNXY_hnSs"),
        ("Jackknife", "https://www.youtube.com/watch?v=QhyRsrPOkoY"),
        ("Supported", "https://www.youtube.com/watch?v=cLQS5mZmXN0"),
        ("Half", "https://www.youtube.com/watch?v=tIHNkW0nGFg"),
        ("Full", "https://www.youtube.com/watch?v=S3bNmmxkh_k"),
        ("Close", "https://www.youtube.com/watch?v=MiNzsa9MIpI"),
        ("Uneven", "https://www.youtube.com/watch?v=UhslmLWprQg"),
        ("Half One-Leg", "https://www.youtube.com/watch?v=dZON2MCVdfg"),
        ("Assisted One-Leg", "https://www.youtube.com/watch?v=9Mcs9M1HORQ"),
        ("One-Leg", "https://www.youtube.com/watch?v=fNCTWGl1Q8A") ]),
    ("Pullups",
      [ ("Vertical", "https://www.youtube.com/watch?v=F8kIJMeqCMs"),
        ("Horizontal", "https://www.youtube.com/watch?v=YN0vvoqssfw"),
        ("Jackknife", "https://www.youtube.com/watch?v=58ss6OF4fmQ"),
        ("Half", "https://www.youtube.com/watch?v=vsRRJGHhKnA"),
        ("Full", "https://www.youtube.com/watch?v=9HBukpLkZIM"),
        ("Close", "https://www.youtube.com/watch?v=Om_3c0jozTc"),
        ("Uneven", "https://www.youtube.com/watch?v=fCHcb4MB1FM"),
        ("Half One-Arm", "https://www.youtube.com/watch?v=ve0EIQdRLag"),
        ("Assisted One-Arm", "https://www.youtube.com/watch?v=W8DBEewoDmY"),
        ("One-Arm", "https://www.youtube.com/watch?v=2tHTY6ZKzkc") ]),
    ("Leg Raises",
      [ ("Knee Tuck", "https://www.youtube.com/watch?v=N8k-SeCkR0s"),
        ("Knee Raise", "https://www.youtube.com/watch?v=98ragSP4gC8"),
        ("Bent Leg", "https://www.youtube.com/watch?v=qq69_MifXAc"),
        ("Frog", "https://www.youtube.com/watch?v=esoUyks3PZM"),
        ("Flat", "https://www.youtube.com/watch?v=hav89ezKkPA"),
        ("Hanging Knee", "https://www.youtube.com/watch?v=t2MU4Q4V3Xk"),
        ("Hanging Bent", "https://www.youtube.com/watch?v=CtFMjDbU0P4"),
        ("Partial", "https://www.youtube.com/watch?v=y4cCwSpScPo"),
        ("Hanging", "https://www.youtube.com/watch?v=7jI6fDNY_yM") ]),
    ("Bridges",
      [ ("Short", "https://www.youtube.com/watch?v=JQFddjAFWZw"),
        ("Straight", "https://www.youtube.com/watch?v=gkTVDJHHIZ0"),
        ("Angled", "https://www.youtube.com/watch?v=o9yKAjvUQlM"),
        ("Head", "https://www.youtube.com/watch?v=BIq3sAZAekg"),
        ("Half", "https://www.youtube.com/watch?v=JXHnTtE9NSk"),
        ("Full", "https://www.youtube.com/watch?v=qnU9LoO5Cyg"),
        ("Wall Down", "https://www.youtube.com/watch?v=LD1h45ArqcY"),
        ("Wall Up", "https://www.youtube.com/watch?v=sc_hsEM7xnA"),
        ("Closing", "https://www.youtube.com/watch?v=tGv50Whxouk"),
        ("Stand-to-Stand", "https://www.youtube.com/watch?v=wZnixqvk-24") ]) ]

/-- The fixed URL that every tutorial link must start with (after
trimming), from `validateTutorialMappings`. -/
def ytWatch : String := "https://www.youtube.com/watch?v="

/-- Inner loop of Go `validateTutorialMappings` over the levels of one
tutorial exercise: each level must be a key of the corresponding goal-map
level table, and each link must start with `ytWatch` after trimming.
The Go source phrases the link test as a negated `HasPrefix` guard; the
branches here are swapped accordingly. Error messages keep the source's
wording without the `%q` quoting. -/
def validateLevels (goalLevels : List (String × String)) (exercise : String) :
    List (String × String) → Except String Unit
  | [] => .ok ()
  | (level, link) :: rest =>
    match tblLookup goalLevels level with
    | none => .error ("unknown level key in tutorials: " ++ exercise ++ " -> " ++ level)
    | some _ =>
      if goHasPrefix (goTrim link) ytWatch then validateLevels goalLevels exercise rest
      else .error ("invalid youtube link for " ++ exercise ++ " -> " ++ level)

/-- Outer loop of Go `validateTutorialMappings`: every tutorial exercise
must be a key of the goal map. Go iterates its maps in unspecified order
and returns the first error found; the model iterates in declaration
order, which does not change whether an error exists. -/
def validateTables (gl : List (String × List (String × String))) :
    List (String × List (String × String)) → Except String Unit
  | [] => .ok ()
  | (exercise, levels) :: rest =>
    match tblLookup gl exercise with
    | none => .error ("unknown exercise key in tutorials: " ++ exercise)
    | some goalLevels =>
      match validateLevels goalLevels exercise levels with
      | .error msg => .error msg
      | .ok _ => validateTables gl rest

/-- Go `validateTutorialMappings`, run by `main` before anything else:
validate the shipped tutorial table against the shipped goal table. -/
def validateTutorialMappings : Except String Unit :=
  validateTables goals tutorials

/-! ## Local file backend (`fileStorage`)

A year-file's read outcome is a `FileRead`: the file may be absent
(`os.IsNotExist`), unreadable (any other `os.Open` error), or readable as
a list of lines (what `bufio.Scanner` yields, newlines already stripped).
A whole local store is a map from year key to `FileRead`. An
`Except.error` result models a Go method returning an error before any
write is performed. -/

inductive FileRead where
  | missing
  | readErr
  | ok (lines : List String)

/-- The scan loop shared by `fileStorage.Recent` and
`fileStorage.LastTrainingDay`: trim each line and keep the parseable
ones, in file order. -/
def parsedEntries (lines : List String) : List WorkoutEntry :=
  collectLoop (fun l => parseLogLine (goTrim l)) lines

/-- Scan loop of `fileStorage.SearchByDate`: trim each line, skip lines
that do not have the date as a literal prefix, and keep those that parse. -/
def fileSearchLines (lines : List String) (date : String) : List WorkoutEntry :=
  collectLoop
    (fun l =>
      let line := goTrim l
      if goHasPrefix line date then parseLogLine line else none)
    lines

/-- Slicing step of `fileStorage.Recent`: keep everything when at most
`limit` entries were parsed, otherwise the last `limit` of them
(`entries[len(entries)-limit:]`). -/
def fileRecentLines (lines : List String) (limit : Nat) : List WorkoutEntry :=
  let entries := parsedEntries lines
  if entries.length ≤ limit then entries
  else entries.drop (entries.length - limit)

/-- Scan loop of `fileStorage.LastTrainingDay`: remember the last line
that parses. -/
def lastParsed (lines : List String) : Option WorkoutEntry :=
  lines.foldl
    (fun acc l => match parseLogLine (goTrim l) with | some e => some e | none => acc)
    none

/-- Line numbers collected by `fileStorage.RemoveByDateIndex`: the
zero-based indices of the raw (untrimmed) lines having the date as a
literal prefix, with `i` the running `lineNum` counter. -/
def matchIdxAux (date : String) : Nat → List String → List Nat
  | _, [] => []
  | i, l :: rest =>
    if goHasPrefix l date then i :: matchIdxAux date (i + 1) rest
    else matchIdxAux date (i + 1) rest

/-- The `matchingLineIdx` slice of `fileStorage.RemoveByDateIndex`. -/
def matchIdx (lines : List String) (date : String) : List Nat :=
  matchIdxAux date 0 lines

/-- Core of `fileStorage.RemoveByDateIndex` once the year-file's lines
are in memory: validate the index against the prefix-matching line
numbers, then rewrite the file without the selected physical line
(`append(allLines[:toRemove], allLines[toRemove+1:]...)`). The Go `index`
is a signed `int`. An `Except.error` is returned before `os.Create`, so
it models the file being left untouched. -/
def fileRemoveLines (lines : List String) (date : String) (index : Int) :
    Except String (List String) :=
  let idxs := matchIdx lines date
  if index < 0 ∨ (idxs.length : Int) ≤ index then .error "invalid remove index"
  else
    let toRemove := idxs.getD index.toNat 0
    .ok (lines.take toRemove ++ lines.drop (toRemove + 1))

/-- `fileStorage.Recent` for the current year's file: a missing file is
an empty result, any other open error is an I/O error. -/
def fileRecent (fr : FileRead) (limit : Nat) : Except String (List WorkoutEntry) :=
  match fr with
  | .missing => .ok []
  | .readErr => .error "io error"
  | .ok lines => .ok (fileRecentLines lines limit)

/-- `fileStorage.LastTrainingDay` for the current year's file: empty
strings when the file is missing or holds no parseable line. -/
def fileLastTrainingDay (fr : FileRead) : Except String (String × String) :=
  match fr with
  | .missing => .ok ("", "")
  | .readErr => .error "io error"
  | .ok lines =>
    match lastParsed lines with
    | none => .ok ("", "")
    | some e => .ok (e.Day, e.Date)

/-- `fileStorage.SearchByDate` over a local store `fs` (year key ->
file). The first step is the unguarded slice `date[:4]`; `none` models
the panic on a date shorter than four characters. A missing year-file is
an empty result, not an error. -/
def fileSearchByDate (fs : String → FileRead) (date : String) :
    Option (Except String (List WorkoutEntry)) :=
  match goSliceTo date 4 with
  | none => none
  | some year =>
    some (match fs year with
      | .missing => .ok []
      | .readErr => .error "io error"
      | .ok lines => .ok (fileSearchLines lines date))

/-- `fileStorage.RemoveByDateIndex` over a local store `fs`. Unlike the
read operations, a missing year-file is an error here. The leading
`date[:4]` slice is unguarded exactly as in `SearchByDate`. -/
def fileRemoveByDateIndex (fs : String → FileRead) (date : String) (index : Int) :
    Option (Except String (List String)) :=
  match goSliceTo date 4 with
  | none => none
  | some year =>
    some (match fs year with
      | .missing => .error ("no workout log found for year " ++ year)
      | .readErr => .error "io error"
      | .ok lines => fileRemoveLines lines date index)

/-- Go `yearFromDate` (used by `fileStorage.Append` only): current year
for a short date, `Atoi` of the first four characters otherwise, falling
back to the current year when that fails. -/
def yearFromDate (currentYear : Int) (date : String) : Int :=
  if date.length < 4 then currentYear
  else
    match goAtoi (yearKey date) with
    | none => currentYear
    | some y => y

/-! ## Remote tabular backend (`sheetsStorage`)

The operations are modelled on the raw row list fetched by
`readAllEntries` (`resp.Values`, each cell already a string as produced
by `fmt.Sprint`); a failed fetch propagates as an error and is not
modelled further since every claim is about the post-fetch behaviour. -/

/-- Go `valueAt`: cell at `idx`, or `""` when the row is shorter. -/
def valueAt (row : List String) (idx : Nat) : String :=
  row.getD idx ""

/-- The entry built for one raw row in `sheetsStorage.readAllEntries`,
tagged with the row's zero-based position in the raw fetched list. -/
def entryOfRow (rowIndex : Nat) (row : List String) : WorkoutEntry :=
  { Date := valueAt row 0
    Day := valueAt row 1
    Exercise := valueAt row 2
    Level := valueAt row 3
    RepsSets := valueAt row 4
    Goal := valueAt row 5
    Comment := valueAt row 6
    RowIndex := rowIndex }

/-- Loop of `sheetsStorage.readAllEntries` with `i` the running raw row
position: skip rows whose first cell is empty and rows whose first cell
case-insensitively equals "date", keep the rest. -/
def readAllEntriesAux (i : Nat) : List (List String) → List WorkoutEntry
  | [] => []
  | row :: rest =>
    let e := entryOfRow i row
    if e.Date = "" then readAllEntriesAux (i + 1) rest
    else if goToLower e.Date = "date" then readAllEntriesAux (i + 1) rest
    else e :: readAllEntriesAux (i + 1) rest

/-- Go `sheetsStorage.readAllEntries` on the fetched raw rows. -/
def readAllEntries (rows : List (List String)) : List WorkoutEntry :=
  readAllEntriesAux 0 rows

/-- Go `sheetsStorage.SearchByDate`: keep the entries whose date field
equals the query exactly, in storage order. -/
def sheetsSearchByDate (rows : List (List String)) (date : String) : List WorkoutEntry :=
  filterLoop (fun e => decide (e.Date = date)) (readAllEntries rows)

/-- Go `sheetsStorage.Recent`: same tail-slicing as the local backend,
over the whole sheet. -/
def sheetsRecent (rows : List (List String)) (limit : Nat) : List WorkoutEntry :=
  let entries := readAllEntries rows
  if entries.length ≤ limit then entries
  else entries.drop (entries.length - limit)

/-- The match list computed inside `sheetsStorage.RemoveByDateIndex`. -/
def sheetsMatches (rows : List (List String)) (date : String) : List WorkoutEntry :=
  filterLoop (fun e => decide (e.Date = date)) (readAllEntries rows)

/-- Go `sheetsStorage.RemoveByDateIndex`: validate the index against the
matches, then issue one `DeleteDimension` request for the half-open row
range `[RowIndex, RowIndex+1)` of the selected match. The returned pair
is the `(StartIndex, EndIndex)` of that request; an `Except.error` is
returned before any request is issued. -/
def sheetsRemoveByDateIndex (rows : List (List String)) (date : String) (index : Int) :
    Except String (Nat × Nat) :=
  let ms := sheetsMatches rows date
  if index < 0 ∨ (ms.length : Int) ≤ index then .error "invalid remove index"
  else
    let targetRow := (ms.getD index.toNat default).RowIndex
    .ok (targetRow, targetRow + 1)

/-- Go `sheetsStorage.LastTrainingDay`: day and date of the last entry,
empty strings when the sheet has none. -/
def sheetsLastTrainingDay (rows : List (List String)) : String × String :=
  match (readAllEntries rows).getLast? with
  | none => ("", "")
  | some e => (e.Day, e.Date)

/-! ## Helper lemmas -/

lemma collectLoop_eq_filterMap (f : α → Option β) (xs : List α) :
    collectLoop f xs = xs.filterMap f := by
  suffices h : ∀ acc : List β,
      xs.foldl (fun acc x => match f x with | some b => acc ++ [b] | none => acc) acc =
        acc ++ xs.filterMap f by
    simpa [collectLoop] using h []
  induction xs with
  | nil => intro acc; simp
  | cons x xs ih =>
    intro acc
    cases h : f x <;> simp [h, List.filterMap_cons, ih]

lemma filterLoop_eq_filter (p : α → Bool) (xs : List α) :
    filterLoop p xs = xs.filter p := by
  suffices h : ∀ acc : List α,
      xs.foldl (fun acc x => if p x then acc ++ [x] else acc) acc = acc ++ xs.filter p by
    simpa [filterLoop] using h []
  induction xs with
  | nil => intro acc; simp
  | cons x xs ih =>
    intro acc
    by_cases h : p x <;> simp [h, List.filter_cons, ih]

lemma matchIdxAux_mem (date : String) :
    ∀ (lines : List String) (i t : Nat), t ∈ matchIdxAux date i lines →
      i ≤ t ∧ t - i < lines.length ∧ goHasPrefix (lines.getD (t - i) "") date = true := by
  intro lines
  induction lines with
  | nil => intro i t h; simp [matchIdxAux] at h
  | cons l rest ih =>
    intro i t h
    by_cases hp : goHasPrefix l date
    · rw [matchIdxAux, if_pos hp] at h
      rcases List.mem_cons.mp h with rfl | h'
      · simpa using hp
      · obtain ⟨h1, h2, h3⟩ := ih (i + 1) t h'
        refine ⟨by omega, by simp only [List.length_cons]; omega, ?_⟩
        rw [show t - i = (t - (i + 1)) + 1 by omega, List.getD_cons_succ]
        exact h3
    · rw [matchIdxAux, if_neg hp] at h
      obtain ⟨h1, h2, h3⟩ := ih (i + 1) t h
      refine ⟨by omega, by simp only [List.length_cons]; omega, ?_⟩
      rw [show t - i = (t - (i + 1)) + 1 by omega, List.getD_cons_succ]
      exact h3

lemma matchIdx_mem (lines : List String) (date : String) (t : Nat)
    (h : t ∈ matchIdx lines date) :
    t < lines.length ∧ goHasPrefix (lines.getD t "") date = true := by
  obtain ⟨_, h2, h3⟩ := matchIdxAux_mem date lines 0 t h
  rw [Nat.sub_zero] at h2 h3
  exact ⟨h2, h3⟩

lemma readAllEntriesAux_mem :
    ∀ (rows : List (List String)) (i : Nat) (e : WorkoutEntry), e ∈ readAllEntriesAux i rows →
      i ≤ e.RowIndex ∧ e.RowIndex - i < rows.length ∧
        e = entryOfRow e.RowIndex (rows.getD (e.RowIndex - i) []) := by
  intro rows
  induction rows with
  | nil => intro i e h; simp [readAllEntriesAux] at h
  | cons row rest ih =>
    intro i e h
    simp only [readAllEntriesAux] at h
    by_cases h1 : (entryOfRow i row).Date = ""
    · rw [if_pos h1] at h
      obtain ⟨g1, g2, g3⟩ := ih (i + 1) e h
      refine ⟨by omega, by simp only [List.length_cons]; omega, ?_⟩
      rw [show e.RowIndex - i = (e.RowIndex - (i + 1)) + 1 by omega, List.getD_cons_succ]
      exact g3
    · rw [if_neg h1] at h
      by_cases h2 : goToLower (entryOfRow i row).Date = "date"
      · rw [if_pos h2] at h
        obtain ⟨g1, g2, g3⟩ := ih (i + 1) e h
        refine ⟨by omega, by simp only [List.length_cons]; omega, ?_⟩
        rw [show e.RowIndex - i = (e.RowIndex - (i + 1)) + 1 by omega, List.getD_cons_succ]
        exact g3
      · rw [if_neg h2] at h
        rcases List.mem_cons.mp h with rfl | h'
        · exact ⟨le_refl i, by simp [entryOfRow], by simp [entryOfRow]⟩
        · obtain ⟨g1, g2, g3⟩ := ih (i + 1) e h'
          refine ⟨by omega, by simp only [List.length_cons]; omega, ?_⟩
          rw [show e.RowIndex - i = (e.RowIndex - (i + 1)) + 1 by omega, List.getD_cons_succ]
          exact g3

lemma tblLookup_of_mem {α : Type} :
    ∀ (l : List (String × α)), (l.map Prod.fst).Nodup →
      ∀ k v, (k, v) ∈ l → tblLookup l k = some v := by
  intro l
  induction l with
  | nil => intro _ k v h; simp at h
  | cons p rest ih =>
    obtain ⟨k', v'⟩ := p
    intro hnd k v hm
    rcases List.mem_cons.mp hm with heq | hm'
    · cases heq
      simp [tblLookup]
    · have hk : k' ≠ k := by
        rintro rfl
        exact (List.nodup_cons.mp hnd).1 (List.mem_map.mpr ⟨(k', v), hm', rfl⟩)
      rw [tblLookup, if_neg hk]
      exact ih (List.nodup_cons.mp hnd).2 k v hm'

lemma validateLevels_ok_iff (glv : List (String × String)) (ex : String) :
    ∀ lvls : List (String × String), validateLevels glv ex lvls = .ok () ↔
      ∀ q ∈ lvls, (tblLookup glv q.1).isSome = true ∧
        goHasPrefix (goTrim q.2) ytWatch = true := by
  intro lvls
  induction lvls with
  | nil => simp [validateLevels]
  | cons q rest ih =>
    obtain ⟨lv, link⟩ := q
    cases hl : tblLookup glv lv with
    | none => simp [validateLevels, hl]
    | some g =>
      by_cases hp : goHasPrefix (goTrim link) ytWatch
      · simp [validateLevels, hl, hp, ih]
      · simp [validateLevels, hl, hp]

lemma validateTables_ok_iff (gl : List (String × List (String × String))) :
    ∀ tt : List (String × List (String × String)), validateTables gl tt = .ok () ↔
      ∀ p ∈ tt, ∃ glv, tblLookup gl p.1 = some glv ∧
        ∀ q ∈ p.2, (tblLookup glv q.1).isSome = true ∧
          goHasPrefix (goTrim q.2) ytWatch = true := by
  intro tt
  induction tt with
  | nil => simp [validateTables]
  | cons p rest ih =>
    obtain ⟨ex, lvls⟩ := p
    cases he : tblLookup gl ex with
    | none => simp [validateTables, he]
    | some glv =>
      cases hv : validateLevels glv ex lvls with
      | error msg =>
        simp only [validateTables, he, hv, List.mem_cons, forall_eq_or_imp]
        constructor
        · intro h; cases h
        · rintro ⟨⟨glv', hg, hq⟩, -⟩
          obtain rfl : glv = glv' := by simpa using hg
          rw [(validateLevels_ok_iff glv ex lvls).mpr hq] at hv
          cases hv
      | ok u =>
        cases u
        simp only [validateTables, he, hv, List.mem_cons, forall_eq_or_imp, ih]
        constructor
        · intro h
          exact ⟨⟨glv, rfl, (validateLevels_ok_iff glv ex lvls).mp hv⟩, h⟩
        · rintro ⟨-, h⟩; exact h

lemma data_pipe : ("|" : String).data = ['|'] := rfl

lemma data_nl : ("\n" : String).data = ['\n'] := rfl

lemma splitOn_field (a rest : List Char) (ha : '|' ∉ a) :
    (a ++ '|' :: rest).splitOn '|' = a :: rest.splitOn '|' := by
  unfold List.splitOn
  refine List.splitOnP_first _ a ?_ '|' (by simp) rest
  intro x hx
  simp only [beq_iff_eq]
  intro hc
  exact ha (hc ▸ hx)

lemma splitOn_single (a : List Char) (ha : '|' ∉ a) : a.splitOn '|' = [a] := by
  unfold List.splitOn
  refine List.splitOnP_eq_single _ _ ?_
  intro x hx
  simp only [beq_iff_eq]
  intro hc
  exact ha (hc ▸ hx)

lemma serializeLogEntry_data (e : WorkoutEntry) :
    (serializeLogEntry e).data =
      e.Date.data ++ '|' :: (e.Day.data ++ '|' :: (e.Exercise.data ++ '|' ::
        (e.Level.data ++ '|' :: (e.RepsSets.data ++ '|' :: (e.Goal.data ++ '|' ::
          (e.Comment.data ++ ['\n'])))))) := by
  simp [serializeLogEntry, String.data_append, data_pipe, data_nl]

lemma serializeLogEntry_data_concat (e : WorkoutEntry) :
    (serializeLogEntry e).data =
      (e.Date.data ++ '|' :: (e.Day.data ++ '|' :: (e.Exercise.data ++ '|' ::
        (e.Level.data ++ '|' :: (e.RepsSets.data ++ '|' :: (e.Goal.data ++ '|' ::
          e.Comment.data)))))) ++ ['\n'] := by
  rw [serializeLogEntry_data]
  simp [List.append_assoc]

lemma chopLast_serializeLogEntry_data (e : WorkoutEntry) :
    (chopLast (serializeLogEntry e)).data =
      e.Date.data ++ '|' :: (e.Day.data ++ '|' :: (e.Exercise.data ++ '|' ::
        (e.Level.data ++ '|' :: (e.RepsSets.data ++ '|' :: (e.Goal.data ++ '|' ::
          e.Comment.data))))) := by
  show (serializeLogEntry e).data.dropLast = _
  rw [serializeLogEntry_data_concat, List.dropLast_concat]

lemma tailSlice_spec (es : List WorkoutEntry) (limit : Nat) :
    (if es.length ≤ limit then es else es.drop (es.length - limit)).length ≤ limit ∧
    List.IsSuffix (if es.length ≤ limit then es else es.drop (es.length - limit)) es ∧
    (limit < es.length →
      (if es.length ≤ limit then es else es.drop (es.length - limit)) =
        es.drop (es.length - limit) ∧
      (if es.length ≤ limit then es else es.drop (es.length - limit)).length = limit) := by
  by_cases h : es.length ≤ limit
  · rw [if_pos h]
    exact ⟨h, List.suffix_refl es, fun hlt => absurd h (by omega)⟩
  · rw [if_neg h]
    refine ⟨by rw [List.length_drop]; omega, List.drop_suffix _ _, fun _ => ?_⟩
    exact ⟨rfl, by rw [List.length_drop]; omega⟩

/-! ## Claim theorems -/

/-- Claim C1, counterexample to the stated form: the local backend's
searchByDate does not return only entries whose date field exactly equals
the query. Searching for "2026-01-2" over a store holding a single entry
dated "2026-01-24" returns that entry, because the match is a raw-line
prefix test. -/
theorem searchByDate_prefix_not_exact :
    fileSearchLines ["2026-01-24|A|Pushups|Half|20x2|25x2|ok"] "2026-01-2" =
      [{ Date := "2026-01-24", Day := "A", Exercise := "Pushups", Level := "Half",
         RepsSets := "20x2", Goal := "25x2", Comment := "ok", RowIndex := 0 }] ∧
    ("2026-01-24" : String) ≠ "2026-01-2" :=
  ⟨rfl, by decide⟩

/-- Claim C1 (amended): the remote backend's searchByDate returns exactly
the entries whose date field equals the query, in storage order; the
local backend instead returns, in storage order, the entries parsed from
trimmed lines having the query as a literal prefix (so a query that is a
proper prefix of a stored date also matches). Both return a plain,
possibly empty, list on zero matches rather than an error. -/
theorem searchByDate_semantics :
    (∀ (rows : List (List String)) (date : String),
      sheetsSearchByDate rows date =
        (readAllEntries rows).filter (fun e => decide (e.Date = date))) ∧
    (∀ (lines : List String) (date : String),
      fileSearchLines lines date =
        lines.filterMap (fun l =>
          if goHasPrefix (goTrim l) date then parseLogLine (goTrim l) else none)) := by
  constructor
  · intro rows date
    exact filterLoop_eq_filter _ _
  · intro lines date
    unfold fileSearchLines
    rw [collectLoop_eq_filterMap]

/-- Claim C2, counterexample to the stated form: with one stored entry
dated "2026-01-24", the number of entries whose date field equals
"2026-01-2" is zero, so removing index 0 for that date is outside
[0, matchCount) — yet the local backend deletes the line (the raw-line
prefix test counts it as a match) and reports no error. -/
theorem removeByDateIndex_exact_count_mismatch :
    ((parsedEntries ["2026-01-24|A|Pushups|Half|20x2|25x2|ok"]).filter
        (fun e => decide (e.Date = "2026-01-2"))).length = 0 ∧
    fileRemoveLines ["2026-01-24|A|Pushups|Half|20x2|25x2|ok"] "2026-01-2" 0 = .ok [] :=
  ⟨by decide, rfl⟩

/-- Claim C2 (amended): with matchCount taken as the backend's own match
count — for the local backend the number of raw stored lines having the
date as a literal prefix, for the remote backend the number of entries
whose date field equals it — removeByDateIndex with an index outside
[0, matchCount) returns the invalid-index error on both backends. The
error is produced before the file rewrite (local) and before the
DeleteDimension request (remote), so storage is untouched. -/
theorem removeByDateIndex_out_of_range :
    ∀ (lines : List String) (rows : List (List String)) (date : String) (index : Int),
      (index < 0 ∨ ((matchIdx lines date).length : Int) ≤ index →
        fileRemoveLines lines date index = .error "invalid remove index") ∧
      (index < 0 ∨ ((sheetsMatches rows date).length : Int) ≤ index →
        sheetsRemoveByDateIndex rows date index = .error "invalid remove index") := by
  intro lines rows date index
  constructor
  · intro h
    simp only [fileRemoveLines]
    rw [if_pos h]
  · intro h
    simp only [sheetsRemoveByDateIndex]
    rw [if_pos h]

/-- Witness for the amended C2 theorem at concrete inputs: one line whose
match count is 1, queried at index 5, and a sheet match count of 1
queried at index -1. -/
theorem removeByDateIndex_out_of_range_witness :
    fileRemoveLines ["2026-01-24|A|B|C|D|E|F"] "2026-01-24" 5 =
      .error "invalid remove index" ∧
    sheetsRemoveByDateIndex [["2026-01-24", "A"]] "2026-01-24" (-1) =
      .error "invalid remove index" :=
  ⟨(removeByDateIndex_out_of_range ["2026-01-24|A|B|C|D|E|F"] [["2026-01-24", "A"]]
      "2026-01-24" 5).1 (by decide),
   (removeByDateIndex_out_of_range ["2026-01-24|A|B|C|D|E|F"] [["2026-01-24", "A"]]
      "2026-01-24" (-1)).2 (by decide)⟩

/-- Claim C3: in the remote backend every entry surviving readAllEntries
carries as RowIndex its zero-based position in the raw fetched row list
(skipped rows included in the count), i.e. rebuilding the entry from the
raw row at that position gives the entry back; and for a valid index,
RemoveByDateIndex issues exactly the single-row deletion range
[RowIndex, RowIndex+1) of the selected match. -/
theorem rowIndex_deletion_invariant :
    ∀ (rows : List (List String)) (date : String) (i : Nat) (e : WorkoutEntry),
      (e ∈ readAllEntries rows →
        e.RowIndex < rows.length ∧
        e = entryOfRow e.RowIndex (rows.getD e.RowIndex [])) ∧
      (i < (sheetsMatches rows date).length →
        sheetsRemoveByDateIndex rows date (i : Int) =
          .ok (((sheetsMatches rows date).getD i default).RowIndex,
               ((sheetsMatches rows date).getD i default).RowIndex + 1)) := by
  intro rows date i e
  constructor
  · intro h
    obtain ⟨-, h2, h3⟩ := readAllEntriesAux_mem rows 0 e h
    rw [Nat.sub_zero] at h2 h3
    exact ⟨h2, h3⟩
  · intro h
    simp only [sheetsRemoveByDateIndex]
    rw [if_neg (by omega)]
    simp

/-- Witness for C3: a sheet whose first raw row is a header (skipped) and
whose second raw row is an entry; the surviving entry has RowIndex 1 and
removal at match index 0 issues the deletion range [1, 2). -/
theorem rowIndex_deletion_invariant_witness :
    (entryOfRow 1 ["2026-01-24", "A", "Pushups", "Half", "20x2", "25x2", "ok"] ∈
      readAllEntries [["Date", "Day"],
        ["2026-01-24", "A", "Pushups", "Half", "20x2", "25x2", "ok"]] →
      (entryOfRow 1 ["2026-01-24", "A", "Pushups", "Half", "20x2", "25x2", "ok"]).RowIndex <
        ([["Date", "Day"],
          ["2026-01-24", "A", "Pushups", "Half", "20x2", "25x2", "ok"]] :
            List (List String)).length ∧
      entryOfRow 1 ["2026-01-24", "A", "Pushups", "Half", "20x2", "25x2", "ok"] =
        entryOfRow
          (entryOfRow 1 ["2026-01-24", "A", "Pushups", "Half", "20x2", "25x2", "ok"]).RowIndex
          (([["Date", "Day"],
             ["2026-01-24", "A", "Pushups", "Half", "20x2", "25x2", "ok"]] :
               List (List String)).getD
            (entryOfRow 1 ["2026-01-24", "A", "Pushups", "Half", "20x2", "25x2", "ok"]).RowIndex
            [])) ∧
    ((0 : Nat) < (sheetsMatches [["Date", "Day"],
        ["2026-01-24", "A", "Pushups", "Half", "20x2", "25x2", "ok"]] "2026-01-24").length ∧
      sheetsRemoveByDateIndex [["Date", "Day"],
          ["2026-01-24", "A", "Pushups", "Half", "20x2", "25x2", "ok"]] "2026-01-24"
          ((0 : Nat) : Int) =
        .ok (((sheetsMatches [["Date", "Day"],
                ["2026-01-24", "A", "Pushups", "Half", "20x2", "25x2", "ok"]]
                "2026-01-24").getD 0 default).RowIndex,
             ((sheetsMatches [["Date", "Day"],
                ["2026-01-24", "A", "Pushups", "Half", "20x2", "25x2", "ok"]]
                "2026-01-24").getD 0 default).RowIndex + 1)) :=
  ⟨(rowIndex_deletion_invariant
      [["Date", "Day"], ["2026-01-24", "A", "Pushups", "Half", "20x2", "25x2", "ok"]]
      "2026-01-24" 0
      (entryOfRow 1 ["2026-01-24", "A", "Pushups", "Half", "20x2", "25x2", "ok"])).1,
   by decide,
   (rowIndex_deletion_invariant
      [["Date", "Day"], ["2026-01-24", "A", "Pushups", "Half", "20x2", "25x2", "ok"]]
      "2026-01-24" 0
      (entryOfRow 1 ["2026-01-24", "A", "Pushups", "Half", "20x2", "25x2", "ok"])).2
     (by decide)⟩

/-- Claim C4, counterexample to the stated form: parsing the exact output
of serializeLogEntry does not restore the comment field, because the
serialized form carries a trailing newline that the split keeps attached
to the seventh field. -/
theorem serialize_parse_newline :
    parseLogLine (serializeLogEntry
        { Date := "", Day := "", Exercise := "", Level := "", RepsSets := "",
          Goal := "", Comment := "", RowIndex := 0 }) =
      some { Date := "", Day := "", Exercise := "", Level := "", RepsSets := "",
             Goal := "", Comment := "\n", RowIndex := 0 } ∧
    ("\n" : String) ≠ "" :=
  ⟨rfl, by decide⟩

/-- Claim C4 (amended): for an entry none of whose seven string fields
contains the delimiter, parsing the serialized line with its trailing
newline chopped off (which is what the scanner-based read path feeds to
parseLogLine) succeeds and restores all seven fields exactly; parsing the
raw serialized string also succeeds but returns the comment with the
trailing newline still attached. -/
theorem serialize_parse_roundTrip :
    ∀ e : WorkoutEntry, '|' ∉ e.Date.data → '|' ∉ e.Day.data → '|' ∉ e.Exercise.data →
      '|' ∉ e.Level.data → '|' ∉ e.RepsSets.data → '|' ∉ e.Goal.data → '|' ∉ e.Comment.data →
      parseLogLine (chopLast (serializeLogEntry e)) = some { e with RowIndex := 0 } ∧
      parseLogLine (serializeLogEntry e) =
        some { e with Comment := e.Comment ++ "\n", RowIndex := 0 } := by
  intro e h1 h2 h3 h4 h5 h6 h7
  have h7' : '|' ∉ e.Comment.data ++ ['\n'] := by
    intro hmem
    rcases List.mem_append.mp hmem with hmem | hmem
    · exact h7 hmem
    · simp at hmem
  have hchop : (chopLast (serializeLogEntry e)).data.splitOn '|' =
      [e.Date.data, e.Day.data, e.Exercise.data, e.Level.data, e.RepsSets.data,
       e.Goal.data, e.Comment.data] := by
    rw [chopLast_serializeLogEntry_data, splitOn_field _ _ h1, splitOn_field _ _ h2,
      splitOn_field _ _ h3, splitOn_field _ _ h4, splitOn_field _ _ h5,
      splitOn_field _ _ h6, splitOn_single _ h7]
  have hfull : (serializeLogEntry e).data.splitOn '|' =
      [e.Date.data, e.Day.data, e.Exercise.data, e.Level.data, e.RepsSets.data,
       e.Goal.data, e.Comment.data ++ ['\n']] := by
    rw [serializeLogEntry_data, splitOn_field _ _ h1, splitOn_field _ _ h2,
      splitOn_field _ _ h3, splitOn_field _ _ h4, splitOn_field _ _ h5,
      splitOn_field _ _ h6, splitOn_single _ h7']
  constructor
  · simp only [parseLogLine, goSplit]
    rw [hchop]
    rfl
  · simp only [parseLogLine, goSplit]
    rw [hfull]
    rfl

/-- Witness for the amended C4 theorem on a concrete delimiter-free
entry. -/
theorem serialize_parse_roundTrip_witness :
    parseLogLine (chopLast (serializeLogEntry
        { Date := "2026-01-24", Day := "A", Exercise := "Pushups", Level := "Half",
          RepsSets := "20x2", Goal := "25x2", Comment := "solid", RowIndex := 0 })) =
      some { Date := "2026-01-24", Day := "A", Exercise := "Pushups", Level := "Half",
             RepsSets := "20x2", Goal := "25x2", Comment := "solid", RowIndex := 0 } ∧
    parseLogLine (serializeLogEntry
        { Date := "2026-01-24", Day := "A", Exercise := "Pushups", Level := "Half",
          RepsSets := "20x2", Goal := "25x2", Comment := "solid", RowIndex := 0 }) =
      some { Date := "2026-01-24", Day := "A", Exercise := "Pushups", Level := "Half",
             RepsSets := "20x2", Goal := "25x2", Comment := "solid" ++ "\n",
             RowIndex := 0 } :=
  serialize_parse_roundTrip
    { Date := "2026-01-24", Day := "A", Exercise := "Pushups", Level := "Half",
      RepsSets := "20x2", Goal := "25x2", Comment := "solid", RowIndex := 0 }
    (by decide) (by decide) (by decide) (by decide) (by decide) (by decide) (by decide)

/-- Claim C5, counterexample to the stated form: with one entry dated
"2026-01-24" followed by one dated "2026-01-2", searching date
"2026-01-2" matches exactly one entry, so index 0 is valid in the claim's
sense — yet the local backend removes the first line (matched only as a
raw prefix), whose date field is not "2026-01-2"; the count of entries
whose date field equals "2026-01-2" is unchanged, so no matching entry
was removed. -/
theorem removeByDateIndex_prefix_line_removed :
    ((parsedEntries ["2026-01-24|A|Pushups|Half|20x2|25x2|a",
        "2026-01-2|B|Squats|Full|30x2|30x2|b"]).filter
      (fun e => decide (e.Date = "2026-01-2"))).length = 1 ∧
    fileRemoveLines ["2026-01-24|A|Pushups|Half|20x2|25x2|a",
        "2026-01-2|B|Squats|Full|30x2|30x2|b"] "2026-01-2" 0 =
      .ok ["2026-01-2|B|Squats|Full|30x2|30x2|b"] ∧
    ((parsedEntries ["2026-01-2|B|Squats|Full|30x2|30x2|b"]).filter
      (fun e => decide (e.Date = "2026-01-2"))).length = 1 :=
  ⟨by decide, rfl, by decide⟩

/-- Claim C5 (amended): with validity and matching read at the raw-line
level, for any index i within the list of lines having the date as a
literal prefix, the local RemoveByDateIndex rewrites the file to exactly
the original lines with the i-th such physical line removed: the removed
line has the date as a prefix, every other line survives with relative
order unchanged (the result is the take/drop splice, a sublist of the
original), and the line count drops by exactly one. -/
theorem removeByDateIndex_valid_removes_one :
    ∀ (lines : List String) (date : String) (i : Nat),
      i < (matchIdx lines date).length →
      fileRemoveLines lines date (i : Int) =
        .ok (lines.take ((matchIdx lines date).getD i 0) ++
             lines.drop ((matchIdx lines date).getD i 0 + 1)) ∧
      (matchIdx lines date).getD i 0 < lines.length ∧
      goHasPrefix (lines.getD ((matchIdx lines date).getD i 0) "") date = true ∧
      (lines.take ((matchIdx lines date).getD i 0) ++
        lines.drop ((matchIdx lines date).getD i 0 + 1)).length + 1 = lines.length ∧
      List.Sublist
        (lines.take ((matchIdx lines date).getD i 0) ++
          lines.drop ((matchIdx lines date).getD i 0 + 1)) lines := by
  intro lines date i h
  have hmem : (matchIdx lines date).getD i 0 ∈ matchIdx lines date := by
    rw [List.getD_eq_getElem _ _ h]
    exact List.getElem_mem h
  obtain ⟨ht, hpref⟩ := matchIdx_mem lines date _ hmem
  refine ⟨?_, ht, hpref, ?_, ?_⟩
  · simp only [fileRemoveLines]
    rw [if_neg (by omega)]
    simp
  · rw [List.length_append, List.length_take, List.length_drop]
    omega
  · rw [← List.eraseIdx_eq_take_drop_succ]
    exact List.eraseIdx_sublist lines ((matchIdx lines date).getD i 0)

/-- Witness for the amended C5 theorem: one matching line among two, the
second line removed at match index 0. -/
theorem removeByDateIndex_valid_removes_one_witness :
    fileRemoveLines ["2025-03-01|A|B|C|D|E|F", "2026-01-24|A|B|C|D|E|F"] "2026-01-24"
        ((0 : Nat) : Int) =
      .ok (["2025-03-01|A|B|C|D|E|F", "2026-01-24|A|B|C|D|E|F"].take
             ((matchIdx ["2025-03-01|A|B|C|D|E|F", "2026-01-24|A|B|C|D|E|F"]
                "2026-01-24").getD 0 0) ++
           ["2025-03-01|A|B|C|D|E|F", "2026-01-24|A|B|C|D|E|F"].drop
             ((matchIdx ["2025-03-01|A|B|C|D|E|F", "2026-01-24|A|B|C|D|E|F"]
                "2026-01-24").getD 0 0 + 1)) ∧
    (matchIdx ["2025-03-01|A|B|C|D|E|F", "2026-01-24|A|B|C|D|E|F"] "2026-01-24").getD 0 0 <
      (["2025-03-01|A|B|C|D|E|F", "2026-01-24|A|B|C|D|E|F"] : List String).length ∧
    goHasPrefix ((["2025-03-01|A|B|C|D|E|F", "2026-01-24|A|B|C|D|E|F"] :
        List String).getD
          ((matchIdx ["2025-03-01|A|B|C|D|E|F", "2026-01-24|A|B|C|D|E|F"]
            "2026-01-24").getD 0 0) "") "2026-01-24" = true ∧
    ((["2025-03-01|A|B|C|D|E|F", "2026-01-24|A|B|C|D|E|F"] : List String).take
        ((matchIdx ["2025-03-01|A|B|C|D|E|F", "2026-01-24|A|B|C|D|E|F"]
          "2026-01-24").getD 0 0) ++
      (["2025-03-01|A|B|C|D|E|F", "2026-01-24|A|B|C|D|E|F"] : List String).drop
        ((matchIdx ["2025-03-01|A|B|C|D|E|F", "2026-01-24|A|B|C|D|E|F"]
          "2026-01-24").getD 0 0 + 1)).length + 1 =
      (["2025-03-01|A|B|C|D|E|F", "2026-01-24|A|B|C|D|E|F"] : List String).length ∧
    List.Sublist
      ((["2025-03-01|A|B|C|D|E|F", "2026-01-24|A|B|C|D|E|F"] : List String).take
          ((matchIdx ["2025-03-01|A|B|C|D|E|F", "2026-01-24|A|B|C|D|E|F"]
            "2026-01-24").getD 0 0) ++
        (["2025-03-01|A|B|C|D|E|F", "2026-01-24|A|B|C|D|E|F"] : List String).drop
          ((matchIdx ["2025-03-01|A|B|C|D|E|F", "2026-01-24|A|B|C|D|E|F"]
            "2026-01-24").getD 0 0 + 1))
      ["2025-03-01|A|B|C|D|E|F", "2026-01-24|A|B|C|D|E|F"] :=
  removeByDateIndex_valid_removes_one
    ["2025-03-01|A|B|C|D|E|F", "2026-01-24|A|B|C|D|E|F"] "2026-01-24" 0 (by decide)

/-- Claim C6: on both backends, recent(limit) returns at most limit
entries and the result is a suffix of the scanned entry list in original
order; when more than limit entries exist it is exactly the last limit of
them. -/
theorem recent_limit_suffix :
    ∀ (lines : List String) (rows : List (List String)) (limit : Nat),
      (fileRecentLines lines limit).length ≤ limit ∧
      List.IsSuffix (fileRecentLines lines limit) (parsedEntries lines) ∧
      (limit < (parsedEntries lines).length →
        fileRecentLines lines limit =
          (parsedEntries lines).drop ((parsedEntries lines).length - limit) ∧
        (fileRecentLines lines limit).length = limit) ∧
      (sheetsRecent rows limit).length ≤ limit ∧
      List.IsSuffix (sheetsRecent rows limit) (readAllEntries rows) ∧
      (limit < (readAllEntries rows).length →
        sheetsRecent rows limit =
          (readAllEntries rows).drop ((readAllEntries rows).length - limit) ∧
        (sheetsRecent rows limit).length = limit) := by
  intro lines rows limit
  obtain ⟨f1, f2, f3⟩ := tailSlice_spec (parsedEntries lines) limit
  obtain ⟨s1, s2, s3⟩ := tailSlice_spec (readAllEntries rows) limit
  exact ⟨f1, f2, f3, s1, s2, s3⟩

/-- Witness for C6 with two parsed entries and limit 1 on each backend. -/
theorem recent_limit_suffix_witness :
    fileRecentLines ["a|b|c|d|e|f|g", "h|i|j|k|l|m|n"] 1 =
      (parsedEntries ["a|b|c|d|e|f|g", "h|i|j|k|l|m|n"]).drop
        ((parsedEntries ["a|b|c|d|e|f|g", "h|i|j|k|l|m|n"]).length - 1) ∧
    (fileRecentLines ["a|b|c|d|e|f|g", "h|i|j|k|l|m|n"] 1).length = 1 ∧
    sheetsRecent [["r1"], ["r2"]] 1 =
      (readAllEntries [["r1"], ["r2"]]).drop ((readAllEntries [["r1"], ["r2"]]).length - 1) ∧
    (sheetsRecent [["r1"], ["r2"]] 1).length = 1 := by
  obtain ⟨-, -, hf, -, -, hs⟩ :=
    recent_limit_suffix ["a|b|c|d|e|f|g", "h|i|j|k|l|m|n"] [["r1"], ["r2"]] 1
  obtain ⟨hf1, hf2⟩ := hf (by decide)
  obtain ⟨hs1, hs2⟩ := hs (by decide)
  exact ⟨hf1, hf2, hs1, hs2⟩

/-- Claim C7: resolveGoal returns the configured goal string for every
(exercise, level) pair present in the goal table, and the sentinel "-"
for every pair absent from it (unknown exercise, or unknown level under a
known exercise). -/
theorem resolveGoal_table :
    (∀ (ex : String) (lvs : List (String × String)) (lv g : String),
      (ex, lvs) ∈ goals → (lv, g) ∈ lvs → resolveGoal ex lv = g) ∧
    (∀ ex lv : String,
      (∀ lvs, tblLookup goals ex = some lvs → tblLookup lvs lv = none) →
      resolveGoal ex lv = "-") := by
  constructor
  · intro ex lvs lv g hex hlv
    have hnd : (goals.map Prod.fst).Nodup := by decide
    have h1 : tblLookup goals ex = some lvs := tblLookup_of_mem goals hnd ex lvs hex
    have hall : ∀ p ∈ goals, ((p.2 : List (String × String)).map Prod.fst).Nodup := by decide
    have h2 : tblLookup lvs lv = some g :=
      tblLookup_of_mem lvs (hall (ex, lvs) hex) lv g hlv
    simp [resolveGoal, h1, h2]
  · intro ex lv h
    cases hg : tblLookup goals ex with
    | none => simp [resolveGoal, hg]
    | some lvs => simp [resolveGoal, hg, h lvs hg]

/-- Witness for C7: the configured pair ("Pushups", "Half") resolves to
"25x2", and the absent exercise "Yoga" resolves to "-". -/
theorem resolveGoal_table_witness :
    resolveGoal "Pushups" "Half" = "25x2" ∧ resolveGoal "Yoga" "Half" = "-" := by
  constructor
  · exact resolveGoal_table.1 "Pushups"
      [ ("Wall", "50x3"), ("Incline", "40x3"), ("Kneeling", "30x3"),
        ("Half", "25x2"), ("Full", "20x2"), ("Close", "20x2"),
        ("Uneven", "20x2"), ("Half One-Arm", "20x2"), ("Lever", "20x2"),
        ("One-Arm", "100x1") ]
      "Half" "25x2" (by decide) (by decide)
  · refine resolveGoal_table.2 "Yoga" "Half" ?_
    intro lvs hl
    have hnone : tblLookup goals "Yoga" = none := by decide
    rw [hnone] at hl
    cases hl

/-- Claim C8: on the local backend, a missing year-file yields an empty
or zero-valued successful result for the read operations (Recent,
SearchByDate, LastTrainingDay) but an error for RemoveByDateIndex, while
a present-but-unreadable file is an error for all of them. Dates must be
at least four characters long for SearchByDate/RemoveByDateIndex to reach
the file at all (see C10). -/
theorem file_absence_vs_error :
    ∀ (fs : String → FileRead) (fr : FileRead) (date : String) (limit : Nat) (index : Int),
      (fr = .missing →
        fileRecent fr limit = .ok [] ∧ fileLastTrainingDay fr = .ok ("", "")) ∧
      (fr = .readErr →
        fileRecent fr limit = .error "io error" ∧
        fileLastTrainingDay fr = .error "io error") ∧
      (4 ≤ date.length → fs (yearKey date) = .missing →
        fileSearchByDate fs date = some (.ok []) ∧
        fileRemoveByDateIndex fs date index =
          some (.error ("no workout log found for year " ++ yearKey date))) ∧
      (4 ≤ date.length → fs (yearKey date) = .readErr →
        fileSearchByDate fs date = some (.error "io error") ∧
        fileRemoveByDateIndex fs date index = some (.error "io error")) := by
  intro fs fr date limit index
  have hslice : 4 ≤ date.length → goSliceTo date 4 = some (yearKey date) := by
    intro h4
    unfold goSliceTo
    rw [if_pos h4]
    rfl
  refine ⟨?_, ?_, ?_, ?_⟩
  · rintro rfl; exact ⟨rfl, rfl⟩
  · rintro rfl; exact ⟨rfl, rfl⟩
  · intro h4 hm
    constructor
    · simp only [fileSearchByDate, hslice h4, hm]
    · simp only [fileRemoveByDateIndex, hslice h4, hm]
  · intro h4 hm
    constructor
    · simp only [fileSearchByDate, hslice h4, hm]
    · simp only [fileRemoveByDateIndex, hslice h4, hm]

/-- Witness for C8 at a concrete date, with an all-missing store and an
all-unreadable store. -/
theorem file_absence_vs_error_witness :
    fileRecent .missing 10 = .ok [] ∧ fileLastTrainingDay .missing = .ok ("", "") ∧
    fileRecent .readErr 10 = .error "io error" ∧
    fileLastTrainingDay .readErr = .error "io error" ∧
    fileSearchByDate (fun _ => .missing) "2026-01-24" = some (.ok []) ∧
    fileRemoveByDateIndex (fun _ => .missing) "2026-01-24" 0 =
      some (.error ("no workout log found for year " ++ yearKey "2026-01-24")) ∧
    fileSearchByDate (fun _ => .readErr) "2026-01-24" = some (.error "io error") ∧
    fileRemoveByDateIndex (fun _ => .readErr) "2026-01-24" 0 =
      some (.error "io error") := by
  obtain ⟨m1, -, s1, -⟩ :=
    file_absence_vs_error (fun _ => .missing) .missing "2026-01-24" 10 0
  obtain ⟨-, e2, -, r2⟩ :=
    file_absence_vs_error (fun _ => .readErr) .readErr "2026-01-24" 10 0
  have h4 : 4 ≤ ("2026-01-24" : String).length := by decide
  exact ⟨(m1 rfl).1, (m1 rfl).2, (e2 rfl).1, (e2 rfl).2,
    (s1 h4 rfl).1, (s1 h4 rfl).2, (r2 h4 rfl).1, (r2 h4 rfl).2⟩

/-- Claim C9: tutorial-table validation (run by main before anything
else) succeeds exactly when every tutorial entry names an exercise
present in the goal table, a level present under that exercise, and a
link that starts with the fixed YouTube prefix after trimming; and it
succeeds on the shipped static tables. -/
theorem tutorial_validation :
    (∀ (gl tt : List (String × List (String × String))),
      validateTables gl tt = .ok () ↔
        ∀ p ∈ tt, ∃ glv, tblLookup gl p.1 = some glv ∧
          ∀ q ∈ p.2, (tblLookup glv q.1).isSome = true ∧
            goHasPrefix (goTrim q.2) ytWatch = true) ∧
    validateTutorialMappings = .ok () :=
  ⟨fun gl => validateTables_ok_iff gl, rfl⟩

/-- Claim C10: the local SearchByDate and RemoveByDateIndex slice
date[:4] without a length guard, so a date shorter than four characters
panics (modelled as `none`) instead of producing a result or error, while
a date of length at least four always reaches the file handling; Append's
year derivation instead falls back to the current year for short or
non-numeric dates via yearFromDate. -/
theorem short_date_panics :
    ∀ (fs : String → FileRead) (date : String) (index : Int) (currentYear : Int),
      (date.length < 4 →
        fileSearchByDate fs date = none ∧
        fileRemoveByDateIndex fs date index = none ∧
        yearFromDate currentYear date = currentYear) ∧
      (4 ≤ date.length →
        (fileSearchByDate fs date).isSome = true ∧
        (fileRemoveByDateIndex fs date index).isSome = true) ∧
      (goAtoi (yearKey date) = none → yearFromDate currentYear date = currentYear) := by
  intro fs date index cy
  refine ⟨?_, ?_, ?_⟩
  · intro h
    have hs : goSliceTo date 4 = none := by
      unfold goSliceTo
      rw [if_neg (by omega)]
    refine ⟨?_, ?_, ?_⟩
    · simp only [fileSearchByDate, hs]
    · simp only [fileRemoveByDateIndex, hs]
    · unfold yearFromDate
      rw [if_pos h]
  · intro h
    have hs : goSliceTo date 4 = some (yearKey date) := by
      unfold goSliceTo
      rw [if_pos h]
      rfl
    constructor
    · simp only [fileSearchByDate, hs, Option.isSome_some]
    · simp only [fileRemoveByDateIndex, hs, Option.isSome_some]
  · intro h
    unfold yearFromDate
    by_cases hl : date.length < 4
    · rw [if_pos hl]
    · rw [if_neg hl, h]

/-- Witness for C10: the two-character date "20" panics on search and
remove but falls back on append's year derivation; a four-plus-character
date reaches the file handling; the non-numeric date "abcd-01-24" falls
back to the current year. -/
theorem short_date_panics_witness :
    fileSearchByDate (fun _ => FileRead.missing) "20" = none ∧
    fileRemoveByDateIndex (fun _ => FileRead.missing) "20" 0 = none ∧
    yearFromDate 2026 "20" = 2026 ∧
    (fileSearchByDate (fun _ => FileRead.missing) "2026-01-24").isSome = true ∧
    yearFromDate 2026 "abcd-01-24" = 2026 := by
  obtain ⟨hshort, -, -⟩ := short_date_panics (fun _ => FileRead.missing) "20" 0 2026
  obtain ⟨-, hlong, -⟩ := short_date_panics (fun _ => FileRead.missing) "2026-01-24" 0 2026
  obtain ⟨-, -, hatoi⟩ := short_date_panics (fun _ => FileRead.missing) "abcd-01-24" 0 2026
  exact ⟨(hshort (by decide)).1, (hshort (by decide)).2.1, (hshort (by decide)).2.2,
    (hlong (by decide)).1, hatoi (by decide)⟩

end CaliLog

